import Mathlib

/-!
Shallow embedding of `src/functions/sessionCollector.js` (the session
lifecycle handler) and proofs of the specification claims about it.

Modelling choices:
* JavaScript/JSON values are modelled by `JVal` (numbers as `Int`; the
  handler only ever converts integral fingerprints to decimal strings).
* The Firestore `sessions` sub-collection for the addressed
  `(websiteName, fingerprint)` key is modelled as a list of `Session`s
  (a store-generated `id` paired with the document data).  The handler
  only ever touches this one sub-collection.
* Server timestamps (`FieldValue.serverTimestamp()`) are modelled by a
  `now : Nat` parameter; the store contract promises monotone server
  timestamps.  Auto-generated document ids are modelled by a
  `freshId : Nat` parameter.
* Store reads and writes performed by an invocation are counted in the
  result (`reads`/`writes`) so that frame claims ("no store access")
  are statable.
-/

/-- A JavaScript/JSON value as far as the handler observes one:
`undefined` (absent field), `null`, booleans, (integral) numbers,
strings and arrays. -/
inductive JVal where
  | undefined : JVal
  | null : JVal
  | bool : Bool → JVal
  | num : Int → JVal
  | str : String → JVal
  | arr : List JVal → JVal

mutual

/-- Structural equality test on `JVal` (deep equality on arrays). -/
def JVal.beq : JVal → JVal → Bool
  | .undefined, .undefined => true
  | .null, .null => true
  | .bool a, .bool b => a == b
  | .num a, .num b => a == b
  | .str a, .str b => a == b
  | .arr a, .arr b => JVal.beqList a b
  | _, _ => false

/-- Elementwise `JVal.beq` on lists. -/
def JVal.beqList : List JVal → List JVal → Bool
  | [], [] => true
  | x :: xs, y :: ys => JVal.beq x y && JVal.beqList xs ys
  | _, _ => false

end

mutual

theorem JVal.beq_iff : ∀ a b : JVal, JVal.beq a b = true ↔ a = b
  | .undefined, .undefined => by simp [JVal.beq]
  | .null, .null => by simp [JVal.beq]
  | .bool a, .bool b => by simp [JVal.beq]
  | .num a, .num b => by simp [JVal.beq]
  | .str a, .str b => by simp [JVal.beq]
  | .arr a, .arr b => by simp [JVal.beq, JVal.beqList_iff a b]
  | .undefined, .null => by simp [JVal.beq]
  | .undefined, .bool _ => by simp [JVal.beq]
  | .undefined, .num _ => by simp [JVal.beq]
  | .undefined, .str _ => by simp [JVal.beq]
  | .undefined, .arr _ => by simp [JVal.beq]
  | .null, .undefined => by simp [JVal.beq]
  | .null, .bool _ => by simp [JVal.beq]
  | .null, .num _ => by simp [JVal.beq]
  | .null, .str _ => by simp [JVal.beq]
  | .null, .arr _ => by simp [JVal.beq]
  | .bool _, .undefined => by simp [JVal.beq]
  | .bool _, .null => by simp [JVal.beq]
  | .bool _, .num _ => by simp [JVal.beq]
  | .bool _, .str _ => by simp [JVal.beq]
  | .bool _, .arr _ => by simp [JVal.beq]
  | .num _, .undefined => by simp [JVal.beq]
  | .num _, .null => by simp [JVal.beq]
  | .num _, .bool _ => by simp [JVal.beq]
  | .num _, .str _ => by simp [JVal.beq]
  | .num _, .arr _ => by simp [JVal.beq]
  | .str _, .undefined => by simp [JVal.beq]
  | .str _, .null => by simp [JVal.beq]
  | .str _, .bool _ => by simp [JVal.beq]
  | .str _, .num _ => by simp [JVal.beq]
  | .str _, .arr _ => by simp [JVal.beq]
  | .arr _, .undefined => by simp [JVal.beq]
  | .arr _, .null => by simp [JVal.beq]
  | .arr _, .bool _ => by simp [JVal.beq]
  | .arr _, .num _ => by simp [JVal.beq]
  | .arr _, .str _ => by simp [JVal.beq]

theorem JVal.beqList_iff : ∀ a b : List JVal, JVal.beqList a b = true ↔ a = b
  | [], [] => by simp [JVal.beqList]
  | x :: xs, y :: ys => by
      simp [JVal.beqList, JVal.beq_iff x y, JVal.beqList_iff xs ys]
  | [], _ :: _ => by simp [JVal.beqList]
  | _ :: _, [] => by simp [JVal.beqList]

end

instance : DecidableEq JVal := fun a b =>
  decidable_of_iff (JVal.beq a b = true) (JVal.beq_iff a b)

/-- JavaScript truthiness for the values of `JVal`:
`undefined`, `null`, `false`, `0` and `""` are falsy; arrays are always
truthy. -/
def JVal.truthy : JVal → Bool
  | .undefined => false
  | .null => false
  | .bool b => b
  | .num n => n != 0
  | .str s => s != ""
  | .arr _ => true

/-- The destructured request body
`{apiKey, tinyCode, fingerprint, data, action, websiteName}`; a missing
field is `JVal.undefined`. -/
structure Body where
  apiKey : JVal := JVal.undefined
  tinyCode : JVal := JVal.undefined
  fingerprint : JVal := JVal.undefined
  data : JVal := JVal.undefined
  action : JVal := JVal.undefined
  websiteName : JVal := JVal.undefined
deriving DecidableEq

/-- The data of one session document, as written by the handler. -/
structure SessionRecord where
  apiKey : JVal
  tinyCode : JVal
  startedAt : Nat
  lastActivity : Nat
  endedAt : Option Nat
  dataBatches : List JVal
deriving DecidableEq

/-- A document of the `sessions` sub-collection: its store-generated id
together with its data. -/
structure Session where
  id : Nat
  data : SessionRecord
deriving DecidableEq

/-- The JSON body of an HTTP response produced by the handler. -/
inductive RespBody where
  /-- `{error: ...}` -/
  | err : String → RespBody
  /-- `{success, message, newSessionStarted}` of the append/start branch. -/
  | append : Bool → String → Bool → RespBody
  /-- `{message, session}` of the close branch. -/
  | close : String → SessionRecord → RespBody
  /-- `{message: ..., fingerprint: ...}` of the no-op branch. -/
  | noop : String → String → RespBody
  /-- The empty body of the CORS preflight answer. -/
  | empty : RespBody
deriving DecidableEq

/-- An HTTP response (status code and JSON body; CORS headers are not
modelled, no claim mentions them). -/
structure Response where
  statusCode : Nat
  body : RespBody
deriving DecidableEq

/-- Result of one handler invocation: the response, the resulting
`sessions` sub-collection, and how many store reads/writes were
performed. -/
structure HandlerOut where
  resp : Response
  store : List Session
  reads : Nat
  writes : Nat
deriving DecidableEq

/-- Decimal digits of `n`, most significant first (fuel-indexed so that
the definition is structural and kernel-computable; the fuel `n+1`
always suffices, and the properties proved below hold for any fuel). -/
def natDigitsAux : Nat → Nat → List Char
  | 0, _ => []
  | fuel + 1, n =>
    if n < 10 then [Nat.digitChar n]
    else natDigitsAux fuel (n / 10) ++ [Nat.digitChar (n % 10)]

/-- Decimal representation of a natural number as a list of digits. -/
def natDigits (n : Nat) : List Char := natDigitsAux (n + 1) n

/-- Embedding of JavaScript `Number.prototype.toString()` on integral
numbers: the decimal string form, with a leading `-` when negative. -/
def jsNumToString (n : Int) : String :=
  if n < 0 then String.mk ('-' :: natDigits n.natAbs)
  else String.mk (natDigits n.toNat)

/-- Strip leading and trailing characters satisfying `p` from a list. -/
def trimChars (p : Char → Bool) (l : List Char) : List Char :=
  ((l.dropWhile p).reverse.dropWhile p).reverse

/-- Embedding of JavaScript `String.prototype.trim()`: strip leading and
trailing whitespace. -/
def jsTrim (s : String) : String := String.mk (trimChars Char.isWhitespace s.data)

/-- 400 response for a fingerprint that is neither a string nor a
number (source line 77). -/
def invalidTypeResp : Response := ⟨400, .err "Fingerprint must be a string or number."⟩

/-- 400 response for a fingerprint that trims to the empty string
(source line 87). -/
def missingResp : Response := ⟨400, .err "Fingerprint missing."⟩

/-- Trim a fingerprint string and reject it when the result is empty
(source lines 85-92). -/
def trimNonEmpty (s : String) : Except Response String :=
  let t := jsTrim s
  if t = "" then .error missingResp else .ok t

/-- Fingerprint type-check and normalization (source lines 72-92): a
number is converted to its decimal string, a string is accepted, any
other type is rejected; then the string is trimmed and rejected when
empty. -/
def normalizeFingerprint : JVal → Except Response String
  | .num n => trimNonEmpty (jsNumToString n)
  | .str s => trimNonEmpty s
  | _ => .error invalidTypeResp

/-- Keep the first occurrence of each value of a list, dropping later
duplicates (fuel-indexed; `l.length` fuel suffices). -/
def dedupFirstAux : Nat → List JVal → List JVal
  | 0, _ => []
  | _, [] => []
  | fuel + 1, x :: xs => x :: dedupFirstAux fuel (xs.filter (fun y => decide (y ≠ x)))

/-- Keep the first occurrence of each value of a list. -/
def dedupFirst (l : List JVal) : List JVal := dedupFirstAux l.length l

/-- Modelled from the spec: the external store's
`FieldValue.arrayUnion` primitive, which is not part of this
repository.  Per the spec's store contract (§6, "append-to-array-with-
dedup-within-call") the incoming items are appended in order, deduped
among themselves within the call but not against the items already in
the array (§4.2). -/
def arrayUnion (old items : List JVal) : List JVal := old ++ dedupFirst items

/-- The items a request's `data` contributes: the elements of `data`
when it is an array, else the one-element batch `[data]`
(source line 133 and the spread on line 140). -/
def asBatch : JVal → List JVal
  | .arr xs => xs
  | d => [d]

/-- The branch-selection condition of the append/start branch,
`data && (!action || action === 'append')` (source line 105). -/
def appendCond (b : Body) : Bool :=
  b.data.truthy && (!b.action.truthy || decide (b.action = JVal.str "append"))

/-- The single most recent session: maximum `startedAt`
(`orderBy('startedAt', 'desc').limit(1)`, source line 99).  Of several
documents with the same maximal `startedAt` the one listed first is
returned; the executions considered below never create equal
timestamps. -/
def latestSession : List Session → Option Session
  | [] => none
  | s :: rest =>
    match latestSession rest with
    | none => some s
    | some t => if t.data.startedAt > s.data.startedAt then some t else some s

/-- The fresh session record written by the start-new transition
(source lines 127-134). -/
def startNewRecord (b : Body) (now : Nat) : SessionRecord :=
  { apiKey := b.apiKey
    tinyCode := b.tinyCode
    startedAt := now
    lastActivity := now
    endedAt := none
    dataBatches := asBatch b.data }

/-- The record after the append transition (source lines 137-147):
`lastActivity` refreshed, `dataBatches` extended by `arrayUnion`. -/
def appendUpdated (r : SessionRecord) (now : Nat) (items : List JVal) : SessionRecord :=
  { r with lastActivity := now, dataBatches := arrayUnion r.dataBatches items }

/-- The record after the close transition (source lines 190-194):
`endedAt` and `lastActivity` set to now. -/
def closeUpdated (r : SessionRecord) (now : Nat) : SessionRecord :=
  { r with endedAt := some now, lastActivity := now }

/-- Replace the document with id `i` by data `r`, leaving every other
document unchanged (the effect of `sessionRef.set`/`update` addressed
by a document reference). -/
def replaceById (st : List Session) (i : Nat) (r : SessionRecord) : List Session :=
  st.map (fun t => if t.id = i then ⟨t.id, r⟩ else t)

/-- The core of the handler on a parsed body (source lines 69-211):
fingerprint normalization, the top-1-by-`startedAt` read, then the
append/start, close or no-op branch.  `st` is the `sessions`
sub-collection of the addressed `(websiteName, fingerprint)` key,
`now` the store's server timestamp for this invocation, `freshId` the
auto-generated id used if a document is created. -/
def handlerCore (b : Body) (st : List Session) (now freshId : Nat) : HandlerOut :=
  match normalizeFingerprint b.fingerprint with
  | .error r => ⟨r, st, 0, 0⟩
  | .ok fp =>
    -- the hot-path read, source line 99
    if appendCond b then
      match latestSession st with
      | none =>
        ⟨⟨200, .append true "Started a new session and recorded data." true⟩,
          st ++ [⟨freshId, startNewRecord b now⟩], 1, 1⟩
      | some s =>
        if s.data.endedAt.isSome then
          ⟨⟨200, .append true "Started a new session and recorded data." true⟩,
            st ++ [⟨freshId, startNewRecord b now⟩], 1, 1⟩
        else
          ⟨⟨200, .append true "Added data to the existing active session." false⟩,
            replaceById st s.id (appendUpdated s.data now (asBatch b.data)), 1, 1⟩
    else if b.action = JVal.str "end" then
      -- re-read for the close branch, source line 171
      match latestSession st with
      | none => ⟨⟨404, .err "No active session found for this fingerprint."⟩, st, 2, 0⟩
      | some s =>
        if s.data.endedAt.isSome then
          ⟨⟨400, .err "Session has already ended."⟩, st, 2, 0⟩
        else
          -- update then read back (source lines 191-195)
          ⟨⟨200, .close "Session ended. Data stored in Firestore." (closeUpdated s.data now)⟩,
            replaceById st s.id (closeUpdated s.data now), 3, 1⟩
    else ⟨⟨200, .noop "Session not updated." fp⟩, st, 1, 0⟩

/-- An HTTP event as far as the handler inspects it. -/
structure Event where
  httpMethod : String
  body : Option String
deriving DecidableEq

/-- The empty JSON object as a parsed body: every field `undefined`. -/
def Body.emptyObj : Body := {}

/-- The full handler (source lines 43-224): CORS preflight answer,
`JSON.parse(event.body || "{}")` with the malformed-JSON rejection,
then `handlerCore`.  `parse` is the external JSON parser, supplied as a
collaborator. -/
def handler (parse : String → Except Unit Body) (ev : Event) (st : List Session)
    (now freshId : Nat) : HandlerOut :=
  if ev.httpMethod = "OPTIONS" then ⟨⟨204, .empty⟩, st, 0, 0⟩
  else
    let raw := match ev.body with
      | none => "{}"
      | some s => if s = "" then "{}" else s
    match parse raw with
    | .error _ => ⟨⟨400, .err "Invalid JSON in request body"⟩, st, 0, 0⟩
    | .ok b => handlerCore b st now freshId

/-- Number of open sessions (`endedAt == null`) in a sub-collection. -/
def countOpen (st : List Session) : Nat :=
  st.countP (fun s => s.data.endedAt.isNone)

/-- One request of a sequential execution: its parsed body, the server
timestamp assigned to the invocation and the auto-id available to it. -/
structure Req where
  body : Body
  now : Nat
  freshId : Nat
deriving DecidableEq

/-- Run a sequence of requests against a sub-collection. -/
def run (st : List Session) : List Req → List Session
  | [] => st
  | r :: rs => run (handlerCore r.body st r.now r.freshId).store rs

/-- The store contract for a sequential execution: server timestamps
are strictly increasing across invocations and auto-generated ids are
fresh (modelled as strictly increasing as well). -/
def ReqChain : Nat → Nat → List Req → Prop
  | _, _, [] => True
  | t, i, r :: rs => t ≤ r.now ∧ i ≤ r.freshId ∧ ReqChain (r.now + 1) (r.freshId + 1) rs

/-- Invariant of a sub-collection reachable by a sequential execution:
all timestamps are below the next server timestamp `t`, all ids below
the next fresh id `i` and pairwise distinct, at most one session is
open, and an open session has strictly the largest `startedAt`. -/
structure StoreInv (st : List Session) (t i : Nat) : Prop where
  started_lt : ∀ s ∈ st, s.data.startedAt < t
  id_lt : ∀ s ∈ st, s.id < i
  ids_distinct : st.Pairwise (fun a b => a.id ≠ b.id)
  open_le : countOpen st ≤ 1
  open_max : ∀ s ∈ st, s.data.endedAt = none →
    ∀ u ∈ st, u.id ≠ s.id → u.data.startedAt < s.data.startedAt

example : JVal.truthy (.num 0) = false := by decide
example : JVal.truthy (.str "x") = true := by decide
example : jsNumToString 42 = "42" := by decide
example : jsNumToString (-307) = "-307" := by decide
example : jsTrim "  ab c  " = "ab c" := by decide
example : normalizeFingerprint (.num 42) = .ok "42" := rfl
example : normalizeFingerprint (.str "   ") = .error missingResp := rfl
example : dedupFirst [.num 1, .num 2, .num 1] = [.num 1, .num 2] := by decide
example :
    handlerCore ⟨.str "k", .undefined, .str "42", .str "click", .undefined, .str "w"⟩ [] 5 1
      = ⟨⟨200, .append true "Started a new session and recorded data." true⟩,
          [⟨1, ⟨.str "k", .undefined, 5, 5, none, [.str "click"]⟩⟩], 1, 1⟩ := by decide

/-! ### Unfolding lemmas for `handlerCore`, one per control-flow path -/

theorem handlerCore_invalid {b : Body} {r : Response} (st : List Session) (now freshId : Nat)
    (hn : normalizeFingerprint b.fingerprint = .error r) :
    handlerCore b st now freshId = ⟨r, st, 0, 0⟩ := by
  simp [handlerCore, hn]

theorem handlerCore_start_none {b : Body} {fp : String} (st : List Session) (now freshId : Nat)
    (hn : normalizeFingerprint b.fingerprint = .ok fp)
    (hA : appendCond b = true)
    (hl : latestSession st = none) :
    handlerCore b st now freshId =
      ⟨⟨200, .append true "Started a new session and recorded data." true⟩,
        st ++ [⟨freshId, startNewRecord b now⟩], 1, 1⟩ := by
  simp [handlerCore, hn, hA, hl]

theorem handlerCore_start_closed {b : Body} {fp : String} {s : Session}
    (st : List Session) (now freshId : Nat)
    (hn : normalizeFingerprint b.fingerprint = .ok fp)
    (hA : appendCond b = true)
    (hl : latestSession st = some s)
    (hc : s.data.endedAt.isSome = true) :
    handlerCore b st now freshId =
      ⟨⟨200, .append true "Started a new session and recorded data." true⟩,
        st ++ [⟨freshId, startNewRecord b now⟩], 1, 1⟩ := by
  simp [handlerCore, hn, hA, hl, hc]

theorem handlerCore_append {b : Body} {fp : String} {s : Session}
    (st : List Session) (now freshId : Nat)
    (hn : normalizeFingerprint b.fingerprint = .ok fp)
    (hA : appendCond b = true)
    (hl : latestSession st = some s)
    (ho : s.data.endedAt = none) :
    handlerCore b st now freshId =
      ⟨⟨200, .append true "Added data to the existing active session." false⟩,
        replaceById st s.id (appendUpdated s.data now (asBatch b.data)), 1, 1⟩ := by
  simp [handlerCore, hn, hA, hl, ho]

theorem handlerCore_end_none {b : Body} {fp : String} (st : List Session) (now freshId : Nat)
    (hn : normalizeFingerprint b.fingerprint = .ok fp)
    (hA : appendCond b = false)
    (he : b.action = JVal.str "end")
    (hl : latestSession st = none) :
    handlerCore b st now freshId =
      ⟨⟨404, .err "No active session found for this fingerprint."⟩, st, 2, 0⟩ := by
  simp [handlerCore, hn, hA, he, hl]

theorem handlerCore_end_closed {b : Body} {fp : String} {s : Session}
    (st : List Session) (now freshId : Nat)
    (hn : normalizeFingerprint b.fingerprint = .ok fp)
    (hA : appendCond b = false)
    (he : b.action = JVal.str "end")
    (hl : latestSession st = some s)
    (hc : s.data.endedAt.isSome = true) :
    handlerCore b st now freshId =
      ⟨⟨400, .err "Session has already ended."⟩, st, 2, 0⟩ := by
  simp [handlerCore, hn, hA, he, hl, hc]

theorem handlerCore_end_open {b : Body} {fp : String} {s : Session}
    (st : List Session) (now freshId : Nat)
    (hn : normalizeFingerprint b.fingerprint = .ok fp)
    (hA : appendCond b = false)
    (he : b.action = JVal.str "end")
    (hl : latestSession st = some s)
    (ho : s.data.endedAt = none) :
    handlerCore b st now freshId =
      ⟨⟨200, .close "Session ended. Data stored in Firestore." (closeUpdated s.data now)⟩,
        replaceById st s.id (closeUpdated s.data now), 3, 1⟩ := by
  simp [handlerCore, hn, hA, he, hl, ho]

theorem handlerCore_noop {b : Body} {fp : String} (st : List Session) (now freshId : Nat)
    (hn : normalizeFingerprint b.fingerprint = .ok fp)
    (hA : appendCond b = false)
    (he : ¬ b.action = JVal.str "end") :
    handlerCore b st now freshId = ⟨⟨200, .noop "Session not updated." fp⟩, st, 1, 0⟩ := by
  simp [handlerCore, hn, hA, he]

/-! ### `latestSession` lemmas -/

theorem latestSession_eq_none_iff (st : List Session) :
    latestSession st = none ↔ st = [] := by
  cases st with
  | nil => simp [latestSession]
  | cons s rest =>
    simp only [latestSession]
    cases latestSession rest with
    | none => simp
    | some t => by_cases h : t.data.startedAt > s.data.startedAt <;> simp [h]

theorem latestSession_mem {st : List Session} {s : Session}
    (h : latestSession st = some s) : s ∈ st := by
  induction st with
  | nil => simp [latestSession] at h
  | cons a rest ih =>
    simp only [latestSession] at h
    cases hl : latestSession rest with
    | none => rw [hl] at h; simp at h; simp [h]
    | some t =>
      rw [hl] at h
      by_cases hgt : t.data.startedAt > a.data.startedAt
      · simp [hgt] at h; subst h; right; exact ih hl
      · simp [hgt] at h; simp [h]

theorem latestSession_ge {st : List Session} {s : Session}
    (h : latestSession st = some s) :
    ∀ u ∈ st, u.data.startedAt ≤ s.data.startedAt := by
  induction st generalizing s with
  | nil => simp
  | cons a rest ih =>
    simp only [latestSession] at h
    intro u hu
    rw [List.mem_cons] at hu
    cases hl : latestSession rest with
    | none =>
      rw [hl] at h; simp at h; subst h
      rcases hu with hu | hu
      · simp [hu]
      · rw [latestSession_eq_none_iff] at hl; simp [hl] at hu
    | some t =>
      rw [hl] at h
      by_cases hgt : t.data.startedAt > a.data.startedAt
      · simp [hgt] at h; subst h
        rcases hu with hu | hu
        · subst hu; exact le_of_lt hgt
        · exact ih hl u hu
      · simp [hgt] at h; subst h
        rcases hu with hu | hu
        · simp [hu]
        · exact le_trans (ih hl u hu) (not_lt.mp hgt)

/-! ### Trimming and decimal-digit lemmas (for fingerprint normalization) -/

theorem dropWhile_of_forall_false {p : Char → Bool} :
    ∀ {l : List Char}, (∀ c ∈ l, p c = false) → l.dropWhile p = l := by
  intro l h
  induction l with
  | nil => rfl
  | cons a l ih =>
    have ha : p a = false := h a (by simp)
    simp [List.dropWhile_cons, ha]

theorem head_false_of_dropWhile {p : Char → Bool} :
    ∀ {l : List Char} {a : Char} {r : List Char}, l.dropWhile p = a :: r → p a = false := by
  intro l
  induction l with
  | nil => intro a r h; simp [List.dropWhile] at h
  | cons b l ih =>
    intro a r h
    by_cases hb : p b
    · rw [List.dropWhile_cons_of_pos hb] at h; exact ih h
    · rw [List.dropWhile_cons_of_neg hb] at h
      obtain ⟨rfl, -⟩ := List.cons.injEq .. ▸ h
      exact eq_false_of_ne_true hb

theorem dropWhile_dropWhile {p : Char → Bool} (l : List Char) :
    (l.dropWhile p).dropWhile p = l.dropWhile p := by
  cases h : l.dropWhile p with
  | nil => rfl
  | cons a r =>
    have := head_false_of_dropWhile h
    simp [List.dropWhile_cons, this]

theorem dropWhile_reverse_trimChars (p : Char → Bool) (l : List Char) :
    (trimChars p l).reverse.dropWhile p = (trimChars p l).reverse := by
  unfold trimChars
  rw [List.reverse_reverse]
  exact dropWhile_dropWhile _

theorem dropWhile_trimChars (p : Char → Bool) (l : List Char) :
    (trimChars p l).dropWhile p = trimChars p l := by
  cases h : trimChars p l with
  | nil => rfl
  | cons a r =>
    have hm : l.dropWhile p
        = trimChars p l ++ ((l.dropWhile p).reverse.takeWhile p).reverse := by
      conv_lhs => rw [← List.reverse_reverse (l.dropWhile p),
        ← List.takeWhile_append_dropWhile (p := p) (l := (l.dropWhile p).reverse)]
      rw [List.reverse_append]
      rfl
    rw [h] at hm
    have hpa : p a = false := head_false_of_dropWhile (by simpa using hm)
    simp [List.dropWhile_cons, hpa]

theorem trimChars_idem (p : Char → Bool) (l : List Char) :
    trimChars p (trimChars p l) = trimChars p l := by
  show (((trimChars p l).dropWhile p).reverse.dropWhile p).reverse = trimChars p l
  rw [dropWhile_trimChars, dropWhile_reverse_trimChars, List.reverse_reverse]

theorem trimChars_of_forall_false {p : Char → Bool} {l : List Char}
    (h : ∀ c ∈ l, p c = false) : trimChars p l = l := by
  unfold trimChars
  rw [dropWhile_of_forall_false h, dropWhile_of_forall_false (by simpa using h),
    List.reverse_reverse]

theorem jsTrim_idem (s : String) : jsTrim (jsTrim s) = jsTrim s := by
  simp [jsTrim, trimChars_idem]

theorem jsTrim_of_no_whitespace {s : String}
    (h : ∀ c ∈ s.data, c.isWhitespace = false) : jsTrim s = s := by
  cases s with
  | mk l => simp [jsTrim, trimChars_of_forall_false h]

theorem digitChar_not_whitespace : ∀ d : Nat, d < 10 → (Nat.digitChar d).isWhitespace = false := by
  decide

theorem natDigitsAux_not_whitespace :
    ∀ (fuel n : Nat), ∀ c ∈ natDigitsAux fuel n, c.isWhitespace = false := by
  intro fuel
  induction fuel with
  | zero => intro n c hc; simp [natDigitsAux] at hc
  | succ fuel ih =>
    intro n c hc
    rw [natDigitsAux] at hc
    by_cases h : n < 10
    · rw [if_pos h] at hc
      simp at hc
      exact hc ▸ digitChar_not_whitespace n h
    · rw [if_neg h] at hc
      rcases List.mem_append.mp hc with hc | hc
      · exact ih (n / 10) c hc
      · simp at hc
        exact hc ▸ digitChar_not_whitespace (n % 10) (Nat.mod_lt n (by norm_num))

theorem natDigitsAux_ne_nil (fuel n : Nat) : natDigitsAux (fuel + 1) n ≠ [] := by
  rw [natDigitsAux]
  by_cases h : n < 10 <;> simp [h]

theorem jsNumToString_no_whitespace (n : Int) :
    ∀ c ∈ (jsNumToString n).data, c.isWhitespace = false := by
  intro c hc
  unfold jsNumToString at hc
  by_cases h : n < 0
  · rw [if_pos h] at hc
    rcases List.mem_cons.mp hc with hc | hc
    · subst hc; decide
    · exact natDigitsAux_not_whitespace _ _ c hc
  · rw [if_neg h] at hc
    exact natDigitsAux_not_whitespace _ _ c hc

theorem jsNumToString_ne_empty (n : Int) : jsNumToString n ≠ "" := by
  unfold jsNumToString
  by_cases h : n < 0
  · rw [if_pos h]
    intro hcon
    exact absurd (congrArg String.data hcon) (by simp)
  · rw [if_neg h]
    intro hcon
    exact natDigitsAux_ne_nil _ _ (congrArg String.data hcon)

/-! ### Fingerprint normalization lemmas -/

theorem trimNonEmpty_ok {s t : String} (h : trimNonEmpty s = .ok t) :
    t = jsTrim s ∧ t ≠ "" := by
  unfold trimNonEmpty at h
  by_cases he : jsTrim s = ""
  · simp [he] at h
  · simp [he] at h
    exact ⟨h.symm, h ▸ he⟩

theorem trimNonEmpty_of_trim_self {s : String} (ht : jsTrim s = s) (hne : s ≠ "") :
    trimNonEmpty s = .ok s := by
  unfold trimNonEmpty
  simp [ht, hne]

theorem normalizeFingerprint_num (n : Int) :
    normalizeFingerprint (.num n) = .ok (jsNumToString n) := by
  show trimNonEmpty (jsNumToString n) = .ok (jsNumToString n)
  exact trimNonEmpty_of_trim_self
    (jsTrim_of_no_whitespace (jsNumToString_no_whitespace n)) (jsNumToString_ne_empty n)

theorem normalizeFingerprint_ok_trimmed {v : JVal} {t : String}
    (h : normalizeFingerprint v = .ok t) : jsTrim t = t ∧ t ≠ "" := by
  cases v with
  | num n =>
    obtain ⟨rfl, hne⟩ := trimNonEmpty_ok (h : trimNonEmpty (jsNumToString n) = .ok t)
    exact ⟨jsTrim_idem _, hne⟩
  | str s =>
    obtain ⟨rfl, hne⟩ := trimNonEmpty_ok (h : trimNonEmpty s = .ok t)
    exact ⟨jsTrim_idem _, hne⟩
  | undefined => simp [normalizeFingerprint] at h
  | null => simp [normalizeFingerprint] at h
  | bool x => simp [normalizeFingerprint] at h
  | arr xs => simp [normalizeFingerprint] at h

theorem normalizeFingerprint_idem {v : JVal} {t : String}
    (h : normalizeFingerprint v = .ok t) :
    normalizeFingerprint (.str t) = .ok t := by
  obtain ⟨ht, hne⟩ := normalizeFingerprint_ok_trimmed h
  show trimNonEmpty t = .ok t
  exact trimNonEmpty_of_trim_self ht hne

/-! ### `dedupFirst` and `arrayUnion` lemmas -/

theorem mem_dedupFirstAux :
    ∀ (fuel : Nat) (l : List JVal), l.length ≤ fuel → ∀ x ∈ l, x ∈ dedupFirstAux fuel l := by
  intro fuel
  induction fuel with
  | zero =>
    intro l hl x hx
    rw [Nat.le_zero, List.length_eq_zero] at hl
    subst hl; simp at hx
  | succ fuel ih =>
    intro l hl x hx
    cases l with
    | nil => simp at hx
    | cons y ys =>
      rw [dedupFirstAux]
      rcases List.mem_cons.mp hx with hx | hx
      · simp [hx]
      · by_cases hxy : x = y
        · simp [hxy]
        · right
          refine ih _ (le_trans (List.length_filter_le _ _) (Nat.succ_le_succ_iff.mp hl)) x ?_
          simp [List.mem_filter, hx, hxy]

theorem mem_dedupFirst {l : List JVal} {x : JVal} (h : x ∈ l) : x ∈ dedupFirst l :=
  mem_dedupFirstAux l.length l le_rfl x h

theorem mem_arrayUnion_of_mem_items {old items : List JVal} {x : JVal}
    (h : x ∈ items) : x ∈ arrayUnion old items := by
  unfold arrayUnion
  exact List.mem_append.mpr (Or.inr (mem_dedupFirst h))

theorem mem_arrayUnion_of_mem_old {old items : List JVal} {x : JVal}
    (h : x ∈ old) : x ∈ arrayUnion old items := by
  unfold arrayUnion
  exact List.mem_append.mpr (Or.inl h)

/-! ### Store invariant machinery (for the at-most-one-open claim) -/

theorem id_unique {st : List Session}
    (hp : st.Pairwise (fun a b => a.id ≠ b.id)) :
    ∀ u ∈ st, ∀ v ∈ st, u.id = v.id → u = v := by
  induction st with
  | nil => simp
  | cons a rest ih =>
    rw [List.pairwise_cons] at hp
    intro u hu v hv hid
    rcases List.mem_cons.mp hu with hu | hu <;> rcases List.mem_cons.mp hv with hv | hv
    · rw [hu, hv]
    · exact absurd (hu ▸ hid) (hp.1 v hv)
    · exact absurd (hv ▸ hid.symm) (hp.1 u hu)
    · exact ih hp.2 u hu v hv hid

theorem latestSession_of_strict_max {st : List Session} {s : Session}
    (hs : s ∈ st)
    (hmax : ∀ u ∈ st, u ≠ s → u.data.startedAt < s.data.startedAt) :
    latestSession st = some s := by
  induction st with
  | nil => simp at hs
  | cons a rest ih =>
    by_cases hsa : a = s
    · subst hsa
      rw [latestSession]
      cases hl : latestSession rest with
      | none => rfl
      | some t =>
        have ht : t ∈ rest := latestSession_mem hl
        by_cases hta : t = a
        · simp [hta]
        · have := hmax t (List.mem_cons_of_mem a ht) hta
          simp [not_lt.mpr (le_of_lt this), this]
    · have hs' : s ∈ rest := by
        rcases List.mem_cons.mp hs with h | h
        · exact absurd h.symm hsa
        · exact h
      have ihr : latestSession rest = some s :=
        ih hs' (fun u hu hus => hmax u (List.mem_cons_of_mem a hu) hus)
      rw [latestSession, ihr]
      have := hmax a (List.mem_cons_self a rest) hsa
      simp [this]

theorem countOpen_eq_zero_iff (st : List Session) :
    countOpen st = 0 ↔ ∀ s ∈ st, s.data.endedAt ≠ none := by
  unfold countOpen
  rw [List.countP_eq_zero]
  constructor
  · intro h s hs
    have := h s hs
    simpa [Option.isNone_iff_eq_none] using this
  · intro h s hs
    simpa [Option.isNone_iff_eq_none] using h s hs

theorem countOpen_of_latest_closed {st : List Session} {t i : Nat} {s : Session}
    (h : StoreInv st t i) (hl : latestSession st = some s)
    (hc : s.data.endedAt.isSome = true) : countOpen st = 0 := by
  rw [countOpen_eq_zero_iff]
  intro u hu hopen
  have hsmem : s ∈ st := latestSession_mem hl
  by_cases hid : u.id = s.id
  · have : u = s := id_unique h.ids_distinct u hu s hsmem hid
    rw [this] at hopen
    rw [hopen] at hc
    simp at hc
  · have hlt : s.data.startedAt < u.data.startedAt :=
      h.open_max u hu hopen s hsmem (fun he => hid he.symm)
    have hle : u.data.startedAt ≤ s.data.startedAt := latestSession_ge hl u hu
    exact absurd hlt (not_lt.mpr hle)

theorem storeInv_nil (t i : Nat) : StoreInv [] t i := by
  constructor <;> simp [countOpen]

theorem storeInv_mono {st : List Session} {t i t' i' : Nat}
    (h : StoreInv st t i) (ht : t ≤ t') (hi : i ≤ i') : StoreInv st t' i' := by
  refine ⟨fun s hs => lt_of_lt_of_le (h.started_lt s hs) ht,
    fun s hs => lt_of_lt_of_le (h.id_lt s hs) hi, h.ids_distinct, h.open_le, h.open_max⟩

theorem storeInv_snoc_open {st : List Session} {t i now fid : Nat}
    (h : StoreInv st t i) (ht : t ≤ now) (hi : i ≤ fid)
    {r : SessionRecord} (hstart : r.startedAt = now) (hopen : r.endedAt = none)
    (hnone : countOpen st = 0) :
    StoreInv (st ++ [⟨fid, r⟩]) (now + 1) (fid + 1) := by
  have hclosed : ∀ s ∈ st, s.data.endedAt ≠ none := (countOpen_eq_zero_iff st).mp hnone
  refine ⟨?_, ?_, ?_, ?_, ?_⟩
  · intro s hs
    rcases List.mem_append.mp hs with hs | hs
    · exact lt_of_lt_of_le (h.started_lt s hs) (le_trans ht (Nat.le_succ now))
    · simp at hs
      rw [hs, hstart]
      exact Nat.lt_succ_self now
  · intro s hs
    rcases List.mem_append.mp hs with hs | hs
    · exact lt_of_lt_of_le (h.id_lt s hs) (le_trans hi (Nat.le_succ fid))
    · simp at hs
      rw [hs]
      exact Nat.lt_succ_self fid
  · rw [List.pairwise_append]
    refine ⟨h.ids_distinct, by simp, ?_⟩
    intro a ha b hb
    simp at hb
    rw [hb]
    exact Nat.ne_of_lt (lt_of_lt_of_le (h.id_lt a ha) hi)
  · unfold countOpen
    rw [List.countP_append]
    unfold countOpen at hnone
    rw [hnone]
    simp [hopen]
  · intro s hs hsopen u hu hid
    have hs' : s = ⟨fid, r⟩ := by
      rcases List.mem_append.mp hs with hs | hs
      · exact absurd hsopen (hclosed s hs)
      · simpa using hs
    rcases List.mem_append.mp hu with hu | hu
    · rw [hs', hstart]
      exact lt_of_lt_of_le (h.started_lt u hu) ht
    · simp at hu
      rw [hs'] at hid
      rw [hu] at hid
      simp at hid

theorem replaceById_id_map (st : List Session) (i : Nat) (r : SessionRecord) :
    ∀ u ∈ replaceById st i r, ∃ v ∈ st, u = (if v.id = i then ⟨v.id, r⟩ else v) := by
  intro u hu
  unfold replaceById at hu
  obtain ⟨v, hv, hvu⟩ := List.mem_map.mp hu
  exact ⟨v, hv, hvu.symm⟩

theorem storeInv_replace {st : List Session} {t i : Nat} {s : Session}
    (h : StoreInv st t i) (hs : s ∈ st)
    {r : SessionRecord} (hstart : r.startedAt = s.data.startedAt)
    (hopen : r.endedAt = none → s.data.endedAt = none) :
    StoreInv (replaceById st s.id r) t i := by
  have huniq := id_unique h.ids_distinct
  -- pointwise facts about the replacement function
  have hid : ∀ v : Session, ((if v.id = s.id then (⟨v.id, r⟩ : Session) else v)).id = v.id := by
    intro v; by_cases hv : v.id = s.id <;> simp [hv]
  have hstarted : ∀ v ∈ st,
      ((if v.id = s.id then (⟨v.id, r⟩ : Session) else v)).data.startedAt
        = v.data.startedAt := by
    intro v hv
    by_cases hvs : v.id = s.id
    · have : v = s := huniq v hv s hs hvs
      simp [hvs, hstart, this]
    · simp [hvs]
  have hopen' : ∀ v ∈ st,
      ((if v.id = s.id then (⟨v.id, r⟩ : Session) else v)).data.endedAt = none →
        v.data.endedAt = none := by
    intro v hv hvo
    by_cases hvs : v.id = s.id
    · have hveq : v = s := huniq v hv s hs hvs
      rw [hvs] at hvo
      simp at hvo
      rw [hveq]
      exact hopen hvo
    · simp [hvs] at hvo
      exact hvo
  refine ⟨?_, ?_, ?_, ?_, ?_⟩
  · intro u hu
    obtain ⟨v, hv, rfl⟩ := replaceById_id_map st s.id r u hu
    rw [hstarted v hv]
    exact h.started_lt v hv
  · intro u hu
    obtain ⟨v, hv, rfl⟩ := replaceById_id_map st s.id r u hu
    rw [hid v]
    exact h.id_lt v hv
  · unfold replaceById
    rw [List.pairwise_map]
    exact h.ids_distinct.imp (fun {a b} hab => by rw [hid a, hid b]; exact hab)
  · unfold countOpen replaceById
    rw [List.countP_map]
    calc List.countP
          ((fun u => u.data.endedAt.isNone) ∘ fun v => if v.id = s.id then ⟨v.id, r⟩ else v) st
        ≤ List.countP (fun u => u.data.endedAt.isNone) st := by
          apply List.countP_mono_left
          intro v hv hvo
          simp only [Function.comp] at hvo
          have := hopen' v hv (by simpa [Option.isNone_iff_eq_none] using hvo)
          simpa [Option.isNone_iff_eq_none] using this
      _ ≤ 1 := h.open_le
  · intro u hu huo w hw hwid
    obtain ⟨v, hv, rfl⟩ := replaceById_id_map st s.id r u hu
    obtain ⟨x, hx, rfl⟩ := replaceById_id_map st s.id r w hw
    rw [hstarted v hv, hstarted x hx]
    rw [hid v, hid x] at hwid
    exact h.open_max v hv (hopen' v hv huo) x hx hwid

theorem mem_replaceById_of_ne {st : List Session} {u : Session} {i : Nat} {r : SessionRecord}
    (hu : u ∈ st) (hne : u.id ≠ i) : u ∈ replaceById st i r := by
  unfold replaceById
  exact List.mem_map.mpr ⟨u, hu, by simp [hne]⟩

theorem asBatch_arr (xs : List JVal) : asBatch (.arr xs) = xs := rfl

theorem asBatch_of_not_arr {d : JVal} (h : ∀ xs, d ≠ JVal.arr xs) : asBatch d = [d] := by
  cases d with
  | arr xs => exact absurd rfl (h xs)
  | undefined => rfl
  | null => rfl
  | bool x => rfl
  | num x => rfl
  | str x => rfl

/-- One handler invocation preserves the store invariant, provided the
server timestamp and the fresh id respect the bounds. -/
theorem storeInv_step {b : Body} {st : List Session} {t i now fid : Nat}
    (h : StoreInv st t i) (ht : t ≤ now) (hi : i ≤ fid) :
    StoreInv (handlerCore b st now fid).store (now + 1) (fid + 1) := by
  cases hn : normalizeFingerprint b.fingerprint with
  | error r =>
    rw [handlerCore_invalid st now fid hn]
    exact storeInv_mono h (by omega) (by omega)
  | ok fp =>
    by_cases hA : appendCond b = true
    · cases hl : latestSession st with
      | none =>
        rw [handlerCore_start_none st now fid hn hA hl]
        exact storeInv_snoc_open h ht hi rfl rfl
          (by rw [(latestSession_eq_none_iff st).mp hl]; simp [countOpen])
      | some s =>
        cases he : s.data.endedAt with
        | none =>
          rw [handlerCore_append st now fid hn hA hl he]
          exact storeInv_mono
            (storeInv_replace h (latestSession_mem hl) rfl (fun _ => he))
            (by omega) (by omega)
        | some e =>
          rw [handlerCore_start_closed st now fid hn hA hl (by simp [he])]
          exact storeInv_snoc_open h ht hi rfl rfl
            (countOpen_of_latest_closed h hl (by simp [he]))
    · have hA' : appendCond b = false := by simpa using hA
      by_cases hend : b.action = JVal.str "end"
      · cases hl : latestSession st with
        | none =>
          rw [handlerCore_end_none st now fid hn hA' hend hl]
          exact storeInv_mono h (by omega) (by omega)
        | some s =>
          cases he : s.data.endedAt with
          | none =>
            rw [handlerCore_end_open st now fid hn hA' hend hl he]
            refine storeInv_mono
              (storeInv_replace h (latestSession_mem hl) rfl ?_) (by omega) (by omega)
            intro hcon
            simp [closeUpdated] at hcon
          | some e =>
            rw [handlerCore_end_closed st now fid hn hA' hend hl (by simp [he])]
            exact storeInv_mono h (by omega) (by omega)
      · rw [handlerCore_noop st now fid hn hA' hend]
        exact storeInv_mono h (by omega) (by omega)

/-- Every state reached by a sequential execution from an invariant
state keeps at most one open session. -/
theorem storeInv_run {rs : List Req} :
    ∀ {st : List Session} {t i : Nat}, StoreInv st t i → ReqChain t i rs →
      ∀ n : Nat, countOpen (run st (rs.take n)) ≤ 1 := by
  induction rs with
  | nil =>
    intro st t i h _ n
    simp only [List.take_nil, run]
    exact h.open_le
  | cons r rs ih =>
    intro st t i h hc n
    obtain ⟨h1, h2, h3⟩ := hc
    cases n with
    | zero =>
      simp only [List.take_zero, run]
      exact h.open_le
    | succ n =>
      rw [List.take_succ_cons]
      show countOpen (run (handlerCore r.body st r.now r.freshId).store (rs.take n)) ≤ 1
      exact ih (storeInv_step h h1 h2) h3 n

/-! ### Claim theorems -/

/-- C1: a request entering the append/start branch when no session
exists for the key, or when the most recent session (maximum
`startedAt`) is closed (non-null `endedAt`), creates exactly one new
session record — appended to the store, with
`startedAt = lastActivity = now`, `endedAt = null` and `dataBatches`
equal to `data` if `data` is a collection and to `[data]` otherwise —
and answers 200 with `success = true` and `newSessionStarted = true`
(and exactly one store write). -/
theorem append_start_creates_one_open_record
    (b : Body) (fp : String) (st : List Session) (now freshId : Nat)
    (hn : normalizeFingerprint b.fingerprint = .ok fp)
    (hA : appendCond b = true)
    (hcl : latestSession st = none ∨
      ∃ s, latestSession st = some s ∧ s.data.endedAt.isSome = true) :
    handlerCore b st now freshId =
      ⟨⟨200, .append true "Started a new session and recorded data." true⟩,
        st ++ [⟨freshId, startNewRecord b now⟩], 1, 1⟩ ∧
    (startNewRecord b now).startedAt = now ∧
    (startNewRecord b now).lastActivity = now ∧
    (startNewRecord b now).endedAt = none ∧
    (∀ xs, b.data = JVal.arr xs → (startNewRecord b now).dataBatches = xs) ∧
    ((∀ xs, b.data ≠ JVal.arr xs) → (startNewRecord b now).dataBatches = [b.data]) := by
  refine ⟨?_, rfl, rfl, rfl, ?_, ?_⟩
  · rcases hcl with hl | ⟨s, hl, hc⟩
    · exact handlerCore_start_none st now freshId hn hA hl
    · exact handlerCore_start_closed st now freshId hn hA hl hc
  · intro xs hxs
    simp [startNewRecord, hxs, asBatch_arr]
  · intro hxs
    simp [startNewRecord, asBatch_of_not_arr hxs]

/-- C2: a request entering the append/start branch when the most recent
session is open mutates that session and no other: `startedAt`,
`endedAt`, `apiKey` and `tinyCode` are unchanged, `lastActivity`
becomes `now`, `dataBatches` is extended with the items of `data`
(wrapped when scalar) without removing existing items and without
deduplicating the new items against them (only within the batch, per
the store's union contract), every other record is untouched, and the
response reports `newSessionStarted = false`. -/
theorem append_open_mutates_only_that_record
    (b : Body) (fp : String) (st : List Session) (now freshId : Nat) (s : Session)
    (hn : normalizeFingerprint b.fingerprint = .ok fp)
    (hA : appendCond b = true)
    (hl : latestSession st = some s)
    (ho : s.data.endedAt = none) :
    handlerCore b st now freshId =
      ⟨⟨200, .append true "Added data to the existing active session." false⟩,
        replaceById st s.id (appendUpdated s.data now (asBatch b.data)), 1, 1⟩ ∧
    (appendUpdated s.data now (asBatch b.data)).startedAt = s.data.startedAt ∧
    (appendUpdated s.data now (asBatch b.data)).endedAt = s.data.endedAt ∧
    (appendUpdated s.data now (asBatch b.data)).apiKey = s.data.apiKey ∧
    (appendUpdated s.data now (asBatch b.data)).tinyCode = s.data.tinyCode ∧
    (appendUpdated s.data now (asBatch b.data)).lastActivity = now ∧
    (appendUpdated s.data now (asBatch b.data)).dataBatches
      = s.data.dataBatches ++ dedupFirst (asBatch b.data) ∧
    (∀ x ∈ asBatch b.data, x ∈ (appendUpdated s.data now (asBatch b.data)).dataBatches) ∧
    (∀ x ∈ s.data.dataBatches, x ∈ (appendUpdated s.data now (asBatch b.data)).dataBatches) ∧
    (∀ u ∈ st, u.id ≠ s.id →
      u ∈ replaceById st s.id (appendUpdated s.data now (asBatch b.data))) := by
  refine ⟨handlerCore_append st now freshId hn hA hl ho, rfl, rfl, rfl, rfl, rfl, rfl,
    ?_, ?_, ?_⟩
  · intro x hx
    exact mem_arrayUnion_of_mem_items hx
  · intro x hx
    exact mem_arrayUnion_of_mem_old hx
  · intro u hu hne
    exact mem_replaceById_of_ne hu hne

/-- C3: a request entering the close branch fails with 404
(`NoActiveSession`) and writes nothing when no session exists; fails
with 400 (`SessionAlreadyEnded`) and leaves the store unchanged when
the most recent session is already closed; and otherwise sets
`endedAt = lastActivity = now` on that session with a single write and
answers 200 with the full closed record. -/
theorem close_branch_spec
    (b : Body) (fp : String) (st : List Session) (now freshId : Nat)
    (hn : normalizeFingerprint b.fingerprint = .ok fp)
    (hA : appendCond b = false)
    (he : b.action = JVal.str "end") :
    (latestSession st = none →
      handlerCore b st now freshId =
        ⟨⟨404, .err "No active session found for this fingerprint."⟩, st, 2, 0⟩) ∧
    (∀ s, latestSession st = some s → s.data.endedAt.isSome = true →
      handlerCore b st now freshId =
        ⟨⟨400, .err "Session has already ended."⟩, st, 2, 0⟩) ∧
    (∀ s, latestSession st = some s → s.data.endedAt = none →
      handlerCore b st now freshId =
        ⟨⟨200, .close "Session ended. Data stored in Firestore." (closeUpdated s.data now)⟩,
          replaceById st s.id (closeUpdated s.data now), 3, 1⟩ ∧
      (closeUpdated s.data now).endedAt = some now ∧
      (closeUpdated s.data now).lastActivity = now ∧
      (closeUpdated s.data now).startedAt = s.data.startedAt ∧
      (∀ u ∈ st, u.id ≠ s.id → u ∈ replaceById st s.id (closeUpdated s.data now))) := by
  refine ⟨?_, ?_, ?_⟩
  · intro hl
    exact handlerCore_end_none st now freshId hn hA he hl
  · intro s hl hc
    exact handlerCore_end_closed st now freshId hn hA he hl hc
  · intro s hl ho
    exact ⟨handlerCore_end_open st now freshId hn hA he hl ho, rfl, rfl, rfl,
      fun u hu hne => mem_replaceById_of_ne hu hne⟩

/-- C4 (counterexample): a request whose `data` field is present (the
number `0`, not `undefined`) and whose `action` is absent does NOT
enter the append/start branch: the handler answers with the no-op
response and creates no record, because the source tests `data`'s
truthiness (`data && ...`), not its presence. -/
theorem branch_selection_falsy_data_cex :
    (Body.mk JVal.undefined JVal.undefined (JVal.str "f") (JVal.num 0)
        JVal.undefined (JVal.str "site")).data ≠ JVal.undefined ∧
    (Body.mk JVal.undefined JVal.undefined (JVal.str "f") (JVal.num 0)
        JVal.undefined (JVal.str "site")).action = JVal.undefined ∧
    handlerCore
      (Body.mk JVal.undefined JVal.undefined (JVal.str "f") (JVal.num 0)
        JVal.undefined (JVal.str "site")) [] 5 1
      = ⟨⟨200, .noop "Session not updated." "f"⟩, [], 1, 0⟩ := by
  refine ⟨by decide, rfl, rfl⟩

/-- C4 (amended): for every request with a valid fingerprint exactly
one branch is selected, in priority order — if `data` is truthy (present
and not a JavaScript-falsy value such as `0`, `""`, `false` or `null`)
and `action` is falsy or equals `"append"`, the append/start branch
runs; else if `action` equals `"end"`, the close branch runs; else the
no-op branch runs.  The final conjunct characterizes the branch
condition as exactly data-truthiness (not presence). -/
theorem branch_selection_trichotomy
    (b : Body) (fp : String) (st : List Session) (now freshId : Nat)
    (hn : normalizeFingerprint b.fingerprint = .ok fp) :
    (appendCond b = true →
      ∃ msg started, (handlerCore b st now freshId).resp = ⟨200, .append true msg started⟩) ∧
    (appendCond b = false → b.action = JVal.str "end" →
      (∃ u, (handlerCore b st now freshId).resp
          = ⟨200, .close "Session ended. Data stored in Firestore." u⟩) ∨
      (handlerCore b st now freshId).resp
          = ⟨404, .err "No active session found for this fingerprint."⟩ ∨
      (handlerCore b st now freshId).resp = ⟨400, .err "Session has already ended."⟩) ∧
    (appendCond b = false → ¬ b.action = JVal.str "end" →
      handlerCore b st now freshId = ⟨⟨200, .noop "Session not updated." fp⟩, st, 1, 0⟩) ∧
    (appendCond b = true ↔
      b.data.truthy = true ∧ (b.action.truthy = false ∨ b.action = JVal.str "append")) := by
  refine ⟨?_, ?_, ?_, ?_⟩
  · intro hA
    cases hl : latestSession st with
    | none =>
      rw [handlerCore_start_none st now freshId hn hA hl]
      exact ⟨_, _, rfl⟩
    | some s =>
      cases he : s.data.endedAt with
      | none =>
        rw [handlerCore_append st now freshId hn hA hl he]
        exact ⟨_, _, rfl⟩
      | some e =>
        rw [handlerCore_start_closed st now freshId hn hA hl (by simp [he])]
        exact ⟨_, _, rfl⟩
  · intro hA he
    cases hl : latestSession st with
    | none =>
      rw [handlerCore_end_none st now freshId hn hA he hl]
      exact Or.inr (Or.inl rfl)
    | some s =>
      cases hc : s.data.endedAt with
      | none =>
        rw [handlerCore_end_open st now freshId hn hA he hl hc]
        exact Or.inl ⟨_, rfl⟩
      | some e =>
        rw [handlerCore_end_closed st now freshId hn hA he hl (by simp [hc])]
        exact Or.inr (Or.inr rfl)
  · intro hA he
    exact handlerCore_noop st now freshId hn hA he
  · unfold appendCond
    constructor
    · intro h
      rcases Bool.and_eq_true_iff.mp h with ⟨h1, h2⟩
      refine ⟨h1, ?_⟩
      rcases Bool.or_eq_true_iff.mp h2 with h2 | h2
      · exact Or.inl (Bool.not_eq_true' .. ▸ h2)
      · exact Or.inr (of_decide_eq_true h2)
    · intro ⟨h1, h2⟩
      rw [h1]
      rcases h2 with h2 | h2
      · simp [h2]
      · simp [h2]

/-- C5: in every sequential execution starting from an empty store,
with the store contract of monotone server timestamps and fresh ids,
every reachable state — after any prefix of the requests — contains at
most one open (`endedAt == null`) session record for the fingerprint
entry. -/
theorem sequential_at_most_one_open
    (rs : List Req) (hchain : ReqChain 0 0 rs) (n : Nat) :
    countOpen (run [] (rs.take n)) ≤ 1 :=
  storeInv_run (storeInv_nil 0 0) hchain n

/-- C6: fingerprint normalization is idempotent — a numeric fingerprint
yields its decimal string form, the same numeric fingerprint given as
that decimal string yields the identical canonical trimmed string, and
re-normalizing any accepted fingerprint returns it unchanged. -/
theorem fingerprint_normalization_idem :
    (∀ n : Int, normalizeFingerprint (.num n) = .ok (jsNumToString n)) ∧
    (∀ n : Int, normalizeFingerprint (.str (jsNumToString n)) = .ok (jsNumToString n)) ∧
    (∀ (v : JVal) (t : String), normalizeFingerprint v = .ok t →
      normalizeFingerprint (.str t) = .ok t) := by
  refine ⟨normalizeFingerprint_num, ?_, fun v t h => normalizeFingerprint_idem h⟩
  intro n
  show trimNonEmpty (jsNumToString n) = .ok (jsNumToString n)
  exact trimNonEmpty_of_trim_self
    (jsTrim_of_no_whitespace (jsNumToString_no_whitespace n)) (jsNumToString_ne_empty n)

/-- C7: a request whose fingerprint is neither a string nor a number is
rejected with the 400 `InvalidFingerprintType` response, and one whose
fingerprint trims to the empty string with the 400 `MissingFingerprint`
response, in both cases before any store read or write (zero reads,
zero writes) and with the store unchanged. -/
theorem invalid_fingerprint_rejected_before_store
    (b : Body) (st : List Session) (now freshId : Nat) :
    ((∀ n : Int, b.fingerprint ≠ JVal.num n) → (∀ s : String, b.fingerprint ≠ JVal.str s) →
      handlerCore b st now freshId
        = ⟨⟨400, .err "Fingerprint must be a string or number."⟩, st, 0, 0⟩) ∧
    (∀ s : String, b.fingerprint = JVal.str s → jsTrim s = "" →
      handlerCore b st now freshId
        = ⟨⟨400, .err "Fingerprint missing."⟩, st, 0, 0⟩) := by
  constructor
  · intro hnum hstr
    have hn : normalizeFingerprint b.fingerprint = .error invalidTypeResp := by
      cases hv : b.fingerprint with
      | num n => exact absurd hv (hnum n)
      | str s => exact absurd hv (hstr s)
      | undefined => rfl
      | null => rfl
      | bool x => rfl
      | arr xs => rfl
    exact handlerCore_invalid st now freshId hn
  · intro s hv htrim
    have hn : normalizeFingerprint b.fingerprint = .error missingResp := by
      rw [hv]
      show trimNonEmpty s = .error missingResp
      unfold trimNonEmpty
      simp [htrim]
    exact handlerCore_invalid st now freshId hn

/-- C8: a request with a valid fingerprint that selects neither the
append/start branch nor the close branch gets the 200 no-op response
`{message: "Session not updated.", fingerprint}`, with zero store
writes and every session record unchanged. -/
theorem noop_branch_no_writes
    (b : Body) (fp : String) (st : List Session) (now freshId : Nat)
    (hn : normalizeFingerprint b.fingerprint = .ok fp)
    (hA : appendCond b = false)
    (he : ¬ b.action = JVal.str "end") :
    handlerCore b st now freshId = ⟨⟨200, .noop "Session not updated." fp⟩, st, 1, 0⟩ ∧
    (handlerCore b st now freshId).writes = 0 ∧
    (handlerCore b st now freshId).store = st := by
  have h := handlerCore_noop st now freshId hn hA he
  exact ⟨h, by rw [h], by rw [h]⟩

/-- C9: `endedAt` is the sole state discriminator — with the most
recent session `s`, the append/start branch starts a new session
exactly when `s.endedAt` is non-null (`newSessionStarted =
s.endedAt.isSome`, whatever the other fields hold), and the close
branch fails with 400 exactly when `s.endedAt` is non-null and
succeeds with 200 exactly when it is null. -/
theorem endedAt_is_sole_discriminator
    (b : Body) (fp : String) (st : List Session) (now freshId : Nat) (s : Session)
    (hn : normalizeFingerprint b.fingerprint = .ok fp)
    (hl : latestSession st = some s) :
    (appendCond b = true →
      (handlerCore b st now freshId).resp =
        ⟨200, .append true
          (if s.data.endedAt.isSome
            then "Started a new session and recorded data."
            else "Added data to the existing active session.")
          s.data.endedAt.isSome⟩) ∧
    (appendCond b = false → b.action = JVal.str "end" →
      (handlerCore b st now freshId).resp.statusCode
        = if s.data.endedAt.isSome then 400 else 200) := by
  constructor
  · intro hA
    cases he : s.data.endedAt with
    | none =>
      rw [handlerCore_append st now freshId hn hA hl he]
      simp [he]
    | some e =>
      rw [handlerCore_start_closed st now freshId hn hA hl (by simp [he])]
      simp [he]
  · intro hA hend
    cases he : s.data.endedAt with
    | none =>
      rw [handlerCore_end_open st now freshId hn hA hend hl he]
      simp [he]
    | some e =>
      rw [handlerCore_end_closed st now freshId hn hA hend hl (by simp [he])]
      simp [he]

/-- C10: a request whose HTTP body is absent or the empty string is
parsed as the empty JSON object, not rejected as malformed JSON: the
handler answers with the 400 `InvalidFingerprintType` rejection (the
fingerprint field is `undefined`), not with the `InvalidRequestBody`
error, and the store is untouched. -/
theorem empty_body_treated_as_empty_object
    (parse : String → Except Unit Body) (ev : Event) (st : List Session) (now freshId : Nat)
    (hparse : parse "{}" = .ok Body.emptyObj)
    (hm : ev.httpMethod ≠ "OPTIONS")
    (hb : ev.body = none ∨ ev.body = some "") :
    handler parse ev st now freshId
      = ⟨⟨400, .err "Fingerprint must be a string or number."⟩, st, 0, 0⟩ ∧
    (handler parse ev st now freshId).resp.body ≠ .err "Invalid JSON in request body" := by
  have hcore : handlerCore Body.emptyObj st now freshId
      = ⟨⟨400, .err "Fingerprint must be a string or number."⟩, st, 0, 0⟩ :=
    handlerCore_invalid st now freshId rfl
  have hmain : handler parse ev st now freshId
      = ⟨⟨400, .err "Fingerprint must be a string or number."⟩, st, 0, 0⟩ := by
    unfold handler
    rw [if_neg hm]
    rcases hb with hb | hb
    · rw [hb]
      show (match parse "{}" with
        | Except.error _ =>
            HandlerOut.mk (Response.mk 400 (RespBody.err "Invalid JSON in request body")) st 0 0
        | Except.ok b => handlerCore b st now freshId) = _
      rw [hparse]
      exact hcore
    · rw [hb]
      show (match parse (if ("" : String) = "" then "{}" else "") with
        | Except.error _ =>
            HandlerOut.mk (Response.mk 400 (RespBody.err "Invalid JSON in request body")) st 0 0
        | Except.ok b => handlerCore b st now freshId) = _
      rw [if_pos rfl, hparse]
      exact hcore
  refine ⟨hmain, ?_⟩
  rw [hmain]
  simp

/-! ### Witnesses: each claim theorem applied at a concrete input -/

theorem append_start_creates_one_open_record_witness :
    handlerCore (Body.mk (JVal.str "k") JVal.null (JVal.str "42") (JVal.str "click")
        JVal.undefined (JVal.str "w")) [] 5 1 =
      ⟨⟨200, .append true "Started a new session and recorded data." true⟩,
        [] ++ [⟨1, startNewRecord (Body.mk (JVal.str "k") JVal.null (JVal.str "42")
          (JVal.str "click") JVal.undefined (JVal.str "w")) 5⟩], 1, 1⟩ :=
  (append_start_creates_one_open_record
    (Body.mk (JVal.str "k") JVal.null (JVal.str "42") (JVal.str "click")
      JVal.undefined (JVal.str "w")) "42" [] 5 1 rfl rfl (Or.inl rfl)).1

theorem append_open_mutates_only_that_record_witness :
    handlerCore (Body.mk JVal.null JVal.null (JVal.str "42")
        (JVal.arr [JVal.str "scroll", JVal.str "hover"]) (JVal.str "append") (JVal.str "w"))
      [⟨1, ⟨JVal.null, JVal.null, 3, 3, none, [JVal.str "click"]⟩⟩] 9 7 =
      ⟨⟨200, .append true "Added data to the existing active session." false⟩,
        replaceById [⟨1, ⟨JVal.null, JVal.null, 3, 3, none, [JVal.str "click"]⟩⟩] 1
          (appendUpdated ⟨JVal.null, JVal.null, 3, 3, none, [JVal.str "click"]⟩ 9
            (asBatch (JVal.arr [JVal.str "scroll", JVal.str "hover"]))), 1, 1⟩ :=
  (append_open_mutates_only_that_record
    (Body.mk JVal.null JVal.null (JVal.str "42")
      (JVal.arr [JVal.str "scroll", JVal.str "hover"]) (JVal.str "append") (JVal.str "w"))
    "42" [⟨1, ⟨JVal.null, JVal.null, 3, 3, none, [JVal.str "click"]⟩⟩] 9 7
    ⟨1, ⟨JVal.null, JVal.null, 3, 3, none, [JVal.str "click"]⟩⟩ rfl rfl rfl rfl).1

theorem close_branch_spec_witness :
    handlerCore (Body.mk JVal.null JVal.null (JVal.str "42") JVal.undefined
        (JVal.str "end") (JVal.str "w"))
      [⟨1, ⟨JVal.null, JVal.null, 3, 4, none, [JVal.str "click"]⟩⟩] 9 7 =
      ⟨⟨200, .close "Session ended. Data stored in Firestore."
          (closeUpdated ⟨JVal.null, JVal.null, 3, 4, none, [JVal.str "click"]⟩ 9)⟩,
        replaceById [⟨1, ⟨JVal.null, JVal.null, 3, 4, none, [JVal.str "click"]⟩⟩] 1
          (closeUpdated ⟨JVal.null, JVal.null, 3, 4, none, [JVal.str "click"]⟩ 9), 3, 1⟩ :=
  ((close_branch_spec
    (Body.mk JVal.null JVal.null (JVal.str "42") JVal.undefined
      (JVal.str "end") (JVal.str "w")) "42"
    [⟨1, ⟨JVal.null, JVal.null, 3, 4, none, [JVal.str "click"]⟩⟩] 9 7 rfl rfl rfl).2.2
    ⟨1, ⟨JVal.null, JVal.null, 3, 4, none, [JVal.str "click"]⟩⟩ rfl rfl).1

theorem branch_selection_trichotomy_witness :
    handlerCore (Body.mk JVal.null JVal.null (JVal.str "7") JVal.undefined
        JVal.undefined (JVal.str "w")) [] 5 1
      = ⟨⟨200, .noop "Session not updated." "7"⟩, [], 1, 0⟩ :=
  (branch_selection_trichotomy
    (Body.mk JVal.null JVal.null (JVal.str "7") JVal.undefined
      JVal.undefined (JVal.str "w")) "7" [] 5 1 rfl).2.2.1 rfl (by decide)

theorem sequential_at_most_one_open_witness :
    countOpen (run []
      (([⟨Body.mk JVal.null JVal.null (JVal.str "42") (JVal.str "click")
            JVal.undefined (JVal.str "w"), 5, 1⟩,
         ⟨Body.mk JVal.null JVal.null (JVal.str "42") JVal.undefined
            (JVal.str "end") (JVal.str "w"), 9, 4⟩] : List Req).take 2)) ≤ 1 :=
  sequential_at_most_one_open
    [⟨Body.mk JVal.null JVal.null (JVal.str "42") (JVal.str "click")
        JVal.undefined (JVal.str "w"), 5, 1⟩,
     ⟨Body.mk JVal.null JVal.null (JVal.str "42") JVal.undefined
        (JVal.str "end") (JVal.str "w"), 9, 4⟩]
    ⟨by decide, by decide, by decide, by decide, trivial⟩ 2

theorem fingerprint_normalization_idem_witness :
    normalizeFingerprint (.str "307") = .ok "307" :=
  fingerprint_normalization_idem.2.2 (.num 307) "307" rfl

theorem invalid_fingerprint_rejected_before_store_witness :
    handlerCore (Body.mk JVal.null JVal.null (JVal.bool true) (JVal.str "click")
        JVal.undefined (JVal.str "w")) [] 5 1
      = ⟨⟨400, .err "Fingerprint must be a string or number."⟩, [], 0, 0⟩ ∧
    handlerCore (Body.mk JVal.null JVal.null (JVal.str "   ") (JVal.str "click")
        JVal.undefined (JVal.str "w")) [] 5 1
      = ⟨⟨400, .err "Fingerprint missing."⟩, [], 0, 0⟩ :=
  ⟨(invalid_fingerprint_rejected_before_store _ [] 5 1).1
      (fun _ h => JVal.noConfusion h) (fun _ h => JVal.noConfusion h),
    (invalid_fingerprint_rejected_before_store _ [] 5 1).2 "   " rfl rfl⟩

theorem noop_branch_no_writes_witness :
    handlerCore (Body.mk JVal.null JVal.null (JVal.str "9") JVal.undefined
        (JVal.str "unknown") (JVal.str "w")) [] 5 1
      = ⟨⟨200, .noop "Session not updated." "9"⟩, [], 1, 0⟩ :=
  (noop_branch_no_writes
    (Body.mk JVal.null JVal.null (JVal.str "9") JVal.undefined
      (JVal.str "unknown") (JVal.str "w")) "9" [] 5 1 rfl rfl (by decide)).1

theorem endedAt_is_sole_discriminator_witness :
    (handlerCore (Body.mk JVal.null JVal.null (JVal.str "42") (JVal.str "click")
        JVal.undefined (JVal.str "w"))
      [⟨1, ⟨JVal.null, JVal.null, 3, 4, some 4, [JVal.str "click"]⟩⟩] 9 7).resp =
      ⟨200, .append true "Started a new session and recorded data." true⟩ :=
  (endedAt_is_sole_discriminator
    (Body.mk JVal.null JVal.null (JVal.str "42") (JVal.str "click")
      JVal.undefined (JVal.str "w")) "42"
    [⟨1, ⟨JVal.null, JVal.null, 3, 4, some 4, [JVal.str "click"]⟩⟩] 9 7
    ⟨1, ⟨JVal.null, JVal.null, 3, 4, some 4, [JVal.str "click"]⟩⟩ rfl rfl).1 rfl

theorem empty_body_treated_as_empty_object_witness :
    handler (fun s => if s = "{}" then Except.ok Body.emptyObj else Except.error ())
        ⟨"POST", none⟩ [] 5 1
      = ⟨⟨400, .err "Fingerprint must be a string or number."⟩, [], 0, 0⟩ :=
  (empty_body_treated_as_empty_object _ ⟨"POST", none⟩ [] 5 1 rfl (by decide)
    (Or.inl rfl)).1
